import Mathlib

/-!
Verification development for the personal-rag repository.

The definitions below are a shallow embedding of the Python sources:
  - app/rag/loader.py      (Loader: splitting, dedup, vector store build)
  - app/rag/rag_pipeline.py (RAGPipeline: history-aware retrieval chain)
  - app/main.py            (the generate endpoint and language routing)

External capabilities (the Chroma backend, the OpenAI models, hashlib,
the langchain splitters, mimetypes, langdetect) are modelled as explicit
function parameters; everything the repository itself computes is
translated directly from the source.
-/

/-- Metadata dictionary attached to a langchain Document in this code base.
Acquisition (loader.py, load_from_url and _load_from_disk) sets source,
file_type, filename and lang_hint; splitting adds h1/h2/h3, breadcrumbs and
section_path; dedup adds content_hash.  Absent keys are modelled as none
(for the Option fields) or as the empty string defaults set by acquisition. -/
structure ChunkMeta where
  source : String
  file_type : String
  filename : String
  lang_hint : String
  h1 : Option String := none
  h2 : Option String := none
  h3 : Option String := none
  breadcrumbs : Option String := none
  section_path : Option String := none
  content_hash : Option String := none
deriving Repr, DecidableEq

/-- A langchain Document: page_content plus metadata (loader.py). -/
structure Document where
  page_content : String
  metadata : ChunkMeta
deriving Repr, DecidableEq

/-- The Chroma collection backing one Loader: the list of stored chunks in
insertion order.  Chroma itself is external; the only operations the
repository uses are get-by-metadata (existsByHash) and add_documents. -/
structure VectorStore where
  docs : List Document
deriving Repr, DecidableEq

def emptyVS : VectorStore := { docs := [] }

/-- Model of self.vectorstore.get(where = content_hash h) followed by the
truthiness test on results.get("documents") in Loader._check_duplicates:
true exactly when some stored chunk carries that content_hash. -/
def existsByHash (vs : VectorStore) (h : String) : Bool :=
  vs.docs.any (fun d => d.metadata.content_hash == some h)

/-- Model of self.vectorstore.add_documents(store_chunks): the new chunks
are appended to the collection. -/
def addDocuments (vs : VectorStore) (chunks : List Document) : VectorStore :=
  { docs := vs.docs ++ chunks }

/-- Model of the assignment chunk.metadata["content_hash"] = content_hash. -/
def setContentHash (c : Document) (h : String) : Document :=
  { c with metadata := { c.metadata with content_hash := some h } }

/-- A chunk with its content hash written into its metadata, as done at the
top of the loop body of Loader._check_duplicates.  The hash parameter stands
for Loader._compute_hash, i.e. hashlib.sha256(text.encode("utf-8")).hexdigest(),
an external primitive applied to the exact chunk text. -/
def withHash (hash : String → String) (c : Document) : Document :=
  setContentHash c (hash c.page_content)

/-- The condition under which Loader._check_duplicates keeps a chunk: its
content hash is not found in the vector store. -/
def dedupKeep (hash : String → String) (vs : VectorStore) (c : Document) : Bool :=
  !(existsByHash vs (hash c.page_content))

/-- The loop of Loader._check_duplicates: store_chunks is the accumulator;
each chunk gets its hash written into metadata, the store is queried for the
hash, and the chunk is appended to store_chunks only when no stored chunk
already carries the hash.  The vector store itself is not modified inside
the loop. -/
def checkDupLoop (hash : String → String) (vs : VectorStore) :
    List Document → List Document → List Document
  | [], store_chunks => store_chunks
  | chunk :: rest, store_chunks =>
    let content_hash := hash chunk.page_content
    let chunk2 := setContentHash chunk content_hash
    if existsByHash vs content_hash then
      checkDupLoop hash vs rest store_chunks
    else
      checkDupLoop hash vs rest (store_chunks ++ [chunk2])

/-- Loader._check_duplicates. -/
def checkDuplicates (hash : String → String) (vs : VectorStore)
    (chunks : List Document) : List Document :=
  checkDupLoop hash vs chunks []

/-- ASCII lower-casing of one character, the case relevant to the file
extensions and language keys this code lower-cases. -/
def charLower (c : Char) : Char :=
  if 65 ≤ c.toNat ∧ c.toNat ≤ 90 then Char.ofNat (c.toNat + 32) else c

/-- Python str.lower as used on file extensions and language keys. -/
def strLower (s : String) : String := String.mk (s.data.map charLower)

/-- One section produced by the external MarkdownHeaderTextSplitter:
page_content of the section plus the h1/h2/h3 metadata keys that are in
scope for it (absent keys are none). -/
structure MdSection where
  h1 : Option String
  h2 : Option String
  h3 : Option String
  content : String
deriving Repr, DecidableEq

/-- Python str.join with a separator, as used for " > ".join(path_parts). -/
def strJoin (sep : String) : List String → String
  | [] => ""
  | [a] => a
  | a :: b :: rest => a ++ sep ++ strJoin sep (b :: rest)

/-- The list comprehension in Loader._split_markdown building path_parts:
values of h1, h2, h3 that are present and truthy (non-empty). -/
def headingParts (sec : MdSection) : List String :=
  ([sec.h1, sec.h2, sec.h3].filterMap id).filter (fun s => !(s == ""))

/-- section_path = " > ".join(path_parts) if path_parts else None. -/
def sectionPathOf (sec : MdSection) : Option String :=
  let parts := headingParts sec
  if parts.isEmpty then none else some (strJoin " > " parts)

/-- Python dict update semantics for one optional key:
a key present in the section metadata overrides the document metadata. -/
def mergeOpt (secVal docVal : Option String) : Option String :=
  match secVal with
  | some v => some v
  | none => docVal

/-- One chunk of the main branch of Loader._split_markdown: the breadcrumb
bracket is prepended when section_path is truthy (Python: a non-None,
non-empty string), and the metadata is the dict merge of the document
metadata, the section metadata and the section_path key. -/
def mdLeafChunk (doc : Document) (sec : MdSection) (sp : Option String)
    (leaf : String) : Document :=
  { page_content :=
      match sp with
      | some p => if p == "" then leaf else "[" ++ p ++ "]" ++ "\n\n" ++ leaf
      | none => leaf
    metadata :=
      { doc.metadata with
        h1 := mergeOpt sec.h1 doc.metadata.h1
        h2 := mergeOpt sec.h2 doc.metadata.h2
        h3 := mergeOpt sec.h3 doc.metadata.h3
        section_path := sp } }

/-- The for-loop over sections in Loader._split_markdown, extending
split_docs with the leaf chunks of each section. -/
def mdSectionChunks (ls : String → List String) (doc : Document) :
    List MdSection → List Document
  | [] => []
  | sec :: rest =>
    (ls sec.content).map (mdLeafChunk doc sec (sectionPathOf sec))
      ++ mdSectionChunks ls doc rest

/-- Loader._split_markdown.  The parameters hs and ls stand for the external
langchain splitters: hs is self.header_splitter.split_text and ls is
self.leaf_splitter.split_text.  When heading splitting yields no chunks the
whole document is token-window split with null section_path. -/
def splitMarkdown (hs : String → List MdSection) (ls : String → List String)
    (doc : Document) : List Document :=
  let split_docs := mdSectionChunks ls doc (hs doc.page_content)
  if split_docs.isEmpty then
    (ls doc.page_content).map (fun chunk =>
      { page_content := chunk
        metadata := { doc.metadata with breadcrumbs := none, section_path := none } })
  else split_docs

/-- Loader._split_generic: token-window splitting only, with breadcrumbs and
section_path set to None (ls stands for self.generic_splitter.split_text). -/
def splitGeneric (ls : String → List String) (doc : Document) : List Document :=
  (ls doc.page_content).map (fun chunk =>
    { page_content := chunk
      metadata := { doc.metadata with breadcrumbs := none, section_path := none } })

/-- Loader._split_documents: dispatch on the lowercased file_type, markdown
documents are heading-split, everything else generically. -/
def splitDocuments (hs : String → List MdSection) (ls : String → List String) :
    List Document → List Document
  | [] => []
  | doc :: rest =>
    (if strLower doc.metadata.file_type == ".md" then splitMarkdown hs ls doc
     else splitGeneric ls doc) ++ splitDocuments hs ls rest

/-- Loader.build_vectorstore: split, dedup-check, then add_documents when any
chunks survive (a logged no-op otherwise). -/
def buildVectorstore (hash : String → String) (hs : String → List MdSection)
    (ls : String → List String) (vs : VectorStore) (documents : List Document) :
    VectorStore :=
  let chunks := splitDocuments hs ls documents
  let store_chunks := checkDuplicates hash vs chunks
  if store_chunks.isEmpty then vs else addDocuments vs store_chunks

/-- The batch of chunks that one build_vectorstore call passes to
add_documents (empty when the call is a no-op). -/
def upsertedChunks (hash : String → String) (hs : String → List MdSection)
    (ls : String → List String) (vs : VectorStore) (documents : List Document) :
    List Document :=
  checkDuplicates hash vs (splitDocuments hs ls documents)

/-- Hashes carried by the chunks stored in the collection. -/
def storedHashes (vs : VectorStore) : List String :=
  vs.docs.filterMap (fun d => d.metadata.content_hash)

-- Lemmas about the dedup loop.

theorem checkDupLoop_eq (hash : String → String) (vs : VectorStore) :
    ∀ (l acc : List Document),
      checkDupLoop hash vs l acc
        = acc ++ (l.filter (dedupKeep hash vs)).map (withHash hash) := by
  intro l
  induction l with
  | nil => intro acc; simp [checkDupLoop]
  | cons c rest ih =>
    intro acc
    cases hEx : existsByHash vs (hash c.page_content) with
    | false =>
      simp only [checkDupLoop, hEx, if_neg Bool.false_ne_true, ih,
        List.filter_cons, dedupKeep, hEx, Bool.not_false, if_pos rfl,
        List.map_cons, List.append_assoc, List.singleton_append]
      rfl
    | true =>
      simp only [checkDupLoop, hEx, if_pos rfl, ih, List.filter_cons,
        dedupKeep, Bool.not_true]
      rfl

theorem checkDuplicates_eq (hash : String → String) (vs : VectorStore)
    (chunks : List Document) :
    checkDuplicates hash vs chunks
      = (chunks.filter (dedupKeep hash vs)).map (withHash hash) := by
  simpa [checkDuplicates] using checkDupLoop_eq hash vs chunks []

theorem withHash_page_content (hash : String → String) (c : Document) :
    (withHash hash c).page_content = c.page_content := rfl

theorem withHash_content_hash (hash : String → String) (c : Document) :
    (withHash hash c).metadata.content_hash = some (hash c.page_content) := rfl

theorem build_docs_eq (hash : String → String) (hs : String → List MdSection)
    (ls : String → List String) (vs : VectorStore) (documents : List Document) :
    (buildVectorstore hash hs ls vs documents).docs
      = vs.docs ++ upsertedChunks hash hs ls vs documents := by
  unfold buildVectorstore upsertedChunks
  cases hE : (checkDuplicates hash vs (splitDocuments hs ls documents)).isEmpty
  · simp [hE, addDocuments]
  · have : checkDuplicates hash vs (splitDocuments hs ls documents) = [] :=
      List.isEmpty_iff.mp hE
    simp [hE, this]

theorem existsByHash_append (a b : List Document) (h : String) :
    existsByHash { docs := a ++ b } h
      = (existsByHash { docs := a } h || existsByHash { docs := b } h) := by
  simp [existsByHash, List.any_append]

/-- A chunk whose hash is absent from the store survives the dedup check. -/
theorem mem_upserted_of_absent (hash : String → String)
    (hs : String → List MdSection) (ls : String → List String)
    (vs : VectorStore) (documents : List Document) (c : Document)
    (hc : c ∈ splitDocuments hs ls documents)
    (habs : existsByHash vs (hash c.page_content) = false) :
    withHash hash c ∈ upsertedChunks hash hs ls vs documents := by
  unfold upsertedChunks
  rw [checkDuplicates_eq]
  exact List.mem_map_of_mem _ (List.mem_filter.mpr ⟨hc, by simp [dedupKeep, habs]⟩)

/-- After one build, every chunk of the same document set has its hash
present in the store. -/
theorem existsByHash_after_build (hash : String → String)
    (hs : String → List MdSection) (ls : String → List String)
    (vs : VectorStore) (documents : List Document) (c : Document)
    (hc : c ∈ splitDocuments hs ls documents) :
    existsByHash (buildVectorstore hash hs ls vs documents)
      (hash c.page_content) = true := by
  have hdocs := build_docs_eq hash hs ls vs documents
  cases hEx : existsByHash vs (hash c.page_content) with
  | true =>
    have : existsByHash { docs := (buildVectorstore hash hs ls vs documents).docs }
        (hash c.page_content) = true := by
      rw [hdocs, existsByHash_append, hEx]
      simp
    simpa using this
  | false =>
    have hmem := mem_upserted_of_absent hash hs ls vs documents c hc hEx
    have : existsByHash { docs := (buildVectorstore hash hs ls vs documents).docs }
        (hash c.page_content) = true := by
      rw [hdocs, existsByHash_append]
      have : existsByHash { docs := upsertedChunks hash hs ls vs documents }
          (hash c.page_content) = true := by
        apply List.any_eq_true.mpr
        exact ⟨withHash hash c, hmem, by simp [withHash_content_hash]⟩
      rw [this]
      simp
    simpa using this

theorem build_of_no_upserts (hash : String → String)
    (hs : String → List MdSection) (ls : String → List String)
    (vs : VectorStore) (documents : List Document)
    (hz : upsertedChunks hash hs ls vs documents = []) :
    buildVectorstore hash hs ls vs documents = vs := by
  unfold buildVectorstore
  have hc : checkDuplicates hash vs (splitDocuments hs ls documents) = [] := hz
  simp [hc]

-- Concrete instances used by counterexamples and witnesses.

/-- Identity stand-in for the external SHA-256 hex digest: any concrete hash
function exhibits the batch behaviour, because chunks with identical text
have identical hashes under every function. -/
def hashId : String → String := fun s => s

/-- Header splitter instance that finds no headings. -/
def hsNone : String → List MdSection := fun _ => []

/-- Leaf splitter instance that returns the whole text as one window. -/
def lsWhole : String → List String := fun s => [s]

def cDoc : Document :=
  { page_content := "hello"
    metadata :=
      { source := "mem", file_type := ".txt", filename := "en_doc.txt",
        lang_hint := "en" } }

def cChunk : Document :=
  { page_content := "hello"
    metadata := { cDoc.metadata with breadcrumbs := none, section_path := none } }

/-- Claim C1, counterexample: build a fresh store from a batch holding the
same text twice.  Both same-batch duplicates survive into the index: the
store ends with two chunks carrying the identical content hash, refuting
that only the first occurrence survives and that at most one chunk with a
given hash reaches the index. -/
theorem dedup_same_batch_counterexample :
    ((buildVectorstore hashId hsNone lsWhole emptyVS [cDoc, cDoc]).docs.filter
        (fun d => d.metadata.content_hash == some "hello")).length = 2 := by
  decide

/-- Claim C1 (corrected): a chunk survives the dedup check exactly when its
content hash is absent from the stored index; survival does not depend on
the other chunks of the batch, so same-batch duplicates whose hash is new
all survive — dedup is only pipeline-wide against the stored index, not
incremental within a batch. -/
theorem dedup_checks_only_stored_index (hash : String → String)
    (vs : VectorStore) (chunks : List Document) (c : Document) :
    c ∈ checkDuplicates hash vs chunks
      ↔ ∃ c0, c0 ∈ chunks ∧ c = withHash hash c0
          ∧ existsByHash vs (hash c0.page_content) = false := by
  rw [checkDuplicates_eq]
  constructor
  · intro h
    obtain ⟨a, ha, hEq⟩ := List.mem_map.mp h
    obtain ⟨ham, hak⟩ := List.mem_filter.mp ha
    exact ⟨a, ham, hEq.symm, by simpa [dedupKeep, Bool.not_eq_true'] using hak⟩
  · rintro ⟨c0, hc0, rfl, habs⟩
    exact List.mem_map_of_mem _
      (List.mem_filter.mpr ⟨hc0, by simp [dedupKeep, habs]⟩)

/-- Witness for the corrected C1 statement at a concrete input. -/
theorem dedup_checks_only_stored_index_witness :
    withHash hashId cDoc ∈ checkDuplicates hashId emptyVS [cDoc] :=
  (dedup_checks_only_stored_index hashId emptyVS [cDoc] (withHash hashId cDoc)).mpr
    ⟨cDoc, by decide, rfl, by decide⟩

/-- Claim C4 (confirmed): running build_vectorstore twice on the same
document set is idempotent — the second run changes nothing, upserts zero
chunks, and the stored hashes after the second run equal those after the
first run. -/
theorem build_vectorstore_idempotent (hash : String → String)
    (hs : String → List MdSection) (ls : String → List String)
    (vs : VectorStore) (documents : List Document) :
    buildVectorstore hash hs ls (buildVectorstore hash hs ls vs documents) documents
        = buildVectorstore hash hs ls vs documents
      ∧ upsertedChunks hash hs ls (buildVectorstore hash hs ls vs documents)
          documents = []
      ∧ storedHashes (buildVectorstore hash hs ls
            (buildVectorstore hash hs ls vs documents) documents)
          = storedHashes (buildVectorstore hash hs ls vs documents) := by
  have hz : upsertedChunks hash hs ls (buildVectorstore hash hs ls vs documents)
      documents = [] := by
    unfold upsertedChunks
    rw [checkDuplicates_eq]
    have hfil : (splitDocuments hs ls documents).filter
        (dedupKeep hash (buildVectorstore hash hs ls vs documents)) = [] := by
      apply List.filter_eq_nil_iff.mpr
      intro a ha
      simp [dedupKeep, existsByHash_after_build hash hs ls vs documents a ha]
    rw [hfil]
    rfl
  have hb := build_of_no_upserts hash hs ls
    (buildVectorstore hash hs ls vs documents) documents hz
  exact ⟨hb, hz, by rw [hb]⟩

/-- Claim C5 (confirmed): the store after build is exactly the old store
plus the dedup-checked survivors — no mutation bypasses the check — and
every upserted chunk carries a content_hash equal to the hash of its exact
text while that hash was looked up in the index and found absent before the
upsert. -/
theorem upserts_carry_hash_and_pass_dedup (hash : String → String)
    (hs : String → List MdSection) (ls : String → List String)
    (vs : VectorStore) (documents : List Document) :
    (buildVectorstore hash hs ls vs documents).docs
        = vs.docs ++ upsertedChunks hash hs ls vs documents
      ∧ ∀ c ∈ upsertedChunks hash hs ls vs documents,
          c.metadata.content_hash = some (hash c.page_content)
          ∧ existsByHash vs (hash c.page_content) = false := by
  refine ⟨build_docs_eq hash hs ls vs documents, ?_⟩
  intro c hc
  unfold upsertedChunks at hc
  rw [checkDuplicates_eq] at hc
  obtain ⟨c0, hc0, rfl⟩ := List.mem_map.mp hc
  obtain ⟨hc0m, hk⟩ := List.mem_filter.mp hc0
  refine ⟨rfl, ?_⟩
  have habs : existsByHash vs (hash c0.page_content) = false := by
    simpa [dedupKeep, Bool.not_eq_true'] using hk
  simpa [withHash_page_content] using habs

/-- Witness for C5 at a concrete input. -/
theorem upserts_carry_hash_and_pass_dedup_witness :
    (withHash hashId cChunk).metadata.content_hash
        = some (hashId (withHash hashId cChunk).page_content)
      ∧ existsByHash emptyVS (hashId (withHash hashId cChunk).page_content)
        = false :=
  (upserts_carry_hash_and_pass_dedup hashId hsNone lsWhole emptyVS [cDoc]).2
    (withHash hashId cChunk) (by decide)

-- Single-document acquisition by URL (Loader.load_from_url, add_from_url).

/-- An HTTP response as requests returns it: status code, the body (byte
decoding to text is abstracted: body is the already decoded content) and
the Content-Type header when present. -/
structure HttpResponse where
  status : Nat
  body : String
  contentType : Option String
deriving Repr, DecidableEq

/-- An exception escaping the requests calls in Loader.load_from_url:
either a network-level failure of the fetch itself, or the HTTPError that
response.raise_for_status raises on a status of 400 or above. -/
inductive FetchError where
  | network : String → FetchError
  | httpStatus : Nat → FetchError
deriving Repr, DecidableEq

/-- Characters after the last slash: os.path.basename applied to a URL. -/
def basenameChars (cs : List Char) : List Char :=
  cs.foldl (fun acc c => if c == '/' then [] else acc ++ [c]) []

/-- The part before the first occurrence of a character: str.split(ch)[0]. -/
def takeUntilChar (ch : Char) : List Char → List Char
  | [] => []
  | c :: rest => if c == ch then [] else c :: takeUntilChar ch rest

/-- os.path.basename(url).split("?")[0] in Loader.load_from_url. -/
def urlBasename (url : String) : String :=
  String.mk (takeUntilChar '?' (basenameChars url.data))

/-- Python str.rfind for the dot character: index of the last dot. -/
def lastDotIdx (cs : List Char) : Option Nat :=
  match cs.reverse.findIdx? (fun c => c == '.') with
  | none => none
  | some j => some (cs.length - 1 - j)

/-- pathlib PurePath.suffix: the substring from the last dot, when that dot
is neither the first nor the last character of the name, else empty. -/
def pathSuffix (name : String) : String :=
  let cs := name.data
  match lastDotIdx cs with
  | none => ""
  | some i => if 0 < i ∧ i < cs.length - 1 then String.mk (cs.drop i) else ""

/-- Python truthiness of the expression x or y for a string option x with a
string default y, as in mimetypes.guess_extension(content_type) or ".txt". -/
def pyOrStr (o : Option String) (dflt : String) : String :=
  match o with
  | some s => if s == "" then dflt else s
  | none => dflt

/-- The filename variable of Loader.load_from_url: basename of the URL up
to a query string, replaced by a timestamped placeholder when empty (t
stands for int(time.time()), an external input). -/
def urlFilename (t : Nat) (url : String) : String :=
  let filename := urlBasename url
  if filename == "" || filename == "/" then "document_" ++ toString t
  else filename

/-- The file_ext computation of Loader.load_from_url: the lowercased
filename suffix when non-empty, otherwise the extension guessed from the
Content-Type header (guessExt stands for mimetypes.guess_extension, an
external table), defaulting to ".txt". -/
def detectedExt (guessExt : String → Option String) (filename : String)
    (r : HttpResponse) : String :=
  let file_ext := strLower (pathSuffix filename)
  if file_ext == "" then pyOrStr (guessExt (r.contentType.getD "")) ".txt"
  else file_ext

def supportedExts : List String := [".txt", ".md", ".pdf"]

/-- Loader.load_from_url.  The fetch parameter stands for requests.get
together with its possible network failure; raise_for_status raises on a
status of 400 or above; pdfText stands for the external PyMuPDF page
extraction and concatenation.  Unsupported extensions yield None (logged);
exceptions are not caught anywhere in this method. -/
def loadFromUrl (fetch : String → Except FetchError HttpResponse)
    (guessExt : String → Option String) (pdfText : String → String)
    (lang : String) (t : Nat) (url : String) :
    Except FetchError (Option Document) :=
  match fetch url with
  | Except.error e => Except.error e
  | Except.ok r =>
    if 400 ≤ r.status then Except.error (FetchError.httpStatus r.status)
    else
      let filename := urlFilename t url
      let file_ext := detectedExt guessExt filename r
      if !(supportedExts.contains file_ext) then Except.ok none
      else
        let content :=
          if file_ext == ".txt" || file_ext == ".md" then r.body
          else pdfText r.body
        Except.ok (some
          { page_content := content
            metadata :=
              { source := url, file_type := file_ext, filename := filename,
                lang_hint := lang } })

/-- Loader.add_from_url: load one document, build the vector store on it
and return its source; a None document yields None with the store
untouched; an exception from load_from_url propagates (the method has no
try block). -/
def addFromUrl (fetch : String → Except FetchError HttpResponse)
    (guessExt : String → Option String) (pdfText : String → String)
    (hash : String → String) (hs : String → List MdSection)
    (ls : String → List String) (lang : String) (t : Nat)
    (vs : VectorStore) (url : String) :
    Except FetchError (Option String × VectorStore) :=
  match loadFromUrl fetch guessExt pdfText lang t url with
  | Except.error e => Except.error e
  | Except.ok none => Except.ok (none, vs)
  | Except.ok (some document) =>
    Except.ok (some document.metadata.source,
      buildVectorstore hash hs ls vs [document])

def guessNone : String → Option String := fun _ => none

def pdfTextId : String → String := fun s => s

def fetch404 : String → Except FetchError HttpResponse :=
  fun _ => Except.ok { status := 404, body := "", contentType := none }

def fetchPng : String → Except FetchError HttpResponse :=
  fun _ => Except.ok { status := 200, body := "img", contentType := some "image/png" }

/-- Claim C6, counterexample: a fetch that answers 404 makes add_from_url
raise (the HTTPError from raise_for_status propagates to the caller) at a
concrete URL, instead of returning null as the claim states for every
acquisition failure. -/
theorem add_from_url_fetch_error_raises :
    addFromUrl fetch404 guessNone pdfTextId hashId hsNone lsWhole "en" 0
        emptyVS "http://h/doc.pdf"
      = Except.error (FetchError.httpStatus 404) := rfl

/-- Claim C6 (corrected): when acquisition yields no document (unsupported
file type), add_from_url returns null and leaves the index untouched; but
when acquisition raises (network failure or non-2xx status), the exception
propagates to the caller instead of returning null. -/
theorem add_from_url_failure_policy
    (fetch : String → Except FetchError HttpResponse)
    (guessExt : String → Option String) (pdfText : String → String)
    (hash : String → String) (hs : String → List MdSection)
    (ls : String → List String) (lang : String) (t : Nat)
    (vs : VectorStore) (url : String) :
    (loadFromUrl fetch guessExt pdfText lang t url = Except.ok none →
       addFromUrl fetch guessExt pdfText hash hs ls lang t vs url
         = Except.ok (none, vs))
    ∧ (∀ e, loadFromUrl fetch guessExt pdfText lang t url = Except.error e →
       addFromUrl fetch guessExt pdfText hash hs ls lang t vs url
         = Except.error e) := by
  constructor
  · intro h
    simp [addFromUrl, h]
  · intro e h
    simp [addFromUrl, h]

/-- Witness for the corrected C6 statement: a .png URL yields null and an
unchanged store, and a 404 response propagates as an error. -/
theorem add_from_url_failure_policy_witness :
    addFromUrl fetchPng guessNone pdfTextId hashId hsNone lsWhole "en" 0
        emptyVS "http://h/pic.png" = Except.ok (none, emptyVS)
      ∧ addFromUrl fetch404 guessNone pdfTextId hashId hsNone lsWhole "en" 0
          emptyVS "http://h/b.txt"
        = Except.error (FetchError.httpStatus 404) := by
  constructor
  · exact (add_from_url_failure_policy fetchPng guessNone pdfTextId hashId
      hsNone lsWhole "en" 0 emptyVS "http://h/pic.png").1 rfl
  · exact (add_from_url_failure_policy fetch404 guessNone pdfTextId hashId
      hsNone lsWhole "en" 0 emptyVS "http://h/b.txt").2
      (FetchError.httpStatus 404) rfl

/-- Claim C9 (confirmed): the filename extension, lowercased, wins whenever
the filename derived from the URL has one; with no extension the
Content-Type header is consulted through the guess table; when that yields
nothing the type defaults to ".txt". -/
theorem file_type_detection_priority (guessExt : String → Option String)
    (t : Nat) (url : String) (r : HttpResponse) :
    (strLower (pathSuffix (urlFilename t url)) ≠ "" →
       detectedExt guessExt (urlFilename t url) r
         = strLower (pathSuffix (urlFilename t url)))
    ∧ (strLower (pathSuffix (urlFilename t url)) = "" →
       guessExt (r.contentType.getD "") = none →
       detectedExt guessExt (urlFilename t url) r = ".txt")
    ∧ (∀ e, strLower (pathSuffix (urlFilename t url)) = "" →
       guessExt (r.contentType.getD "") = some e → e ≠ "" →
       detectedExt guessExt (urlFilename t url) r = e) := by
  refine ⟨?_, ?_, ?_⟩
  · intro h
    simp [detectedExt, h]
  · intro h hg
    simp [detectedExt, h, hg, pyOrStr]
  · intro e h hg he
    simp [detectedExt, h, hg, pyOrStr, he]

/-- Witness for C9 at concrete URLs: an uppercase .PDF extension behind a
query string wins over the header, and an extensionless URL with no header
guess falls back to ".txt". -/
theorem file_type_detection_priority_witness :
    detectedExt guessNone (urlFilename 0 "http://h/a/doc.PDF?sig=1")
        { status := 200, body := "", contentType := none } = ".pdf"
      ∧ detectedExt guessNone (urlFilename 0 "http://h/file")
        { status := 200, body := "", contentType := none } = ".txt" := by
  constructor
  · exact ((file_type_detection_priority guessNone 0 "http://h/a/doc.PDF?sig=1"
      { status := 200, body := "", contentType := none }).1
      (by decide)).trans (by decide)
  · exact (file_type_detection_priority guessNone 0 "http://h/file"
      { status := 200, body := "", contentType := none }).2.1 (by decide) rfl

-- Splitting: breadcrumbs and section paths (claim C7).

theorem strJoin_length_ge (sep : String) (a : String) (l : List String) :
    a.length ≤ (strJoin sep (a :: l)).length := by
  cases l with
  | nil => simp [strJoin]
  | cons b rest =>
    simp only [strJoin, String.length_append]
    omega

theorem sectionPathOf_ne_empty (sec : MdSection) :
    ∀ p, sectionPathOf sec = some p → p ≠ "" := by
  intro p hp
  unfold sectionPathOf at hp
  cases hparts : headingParts sec with
  | nil => rw [hparts] at hp; simp at hp
  | cons a l =>
    rw [hparts] at hp
    simp only [List.isEmpty_cons, if_neg Bool.false_ne_true,
      Option.some.injEq] at hp
    have ha : a ∈ headingParts sec := by
      rw [hparts]; exact List.mem_cons_self a l
    have hane : (a == "") = false := by
      have h2 := List.of_mem_filter ha
      simpa only [Bool.not_eq_true'] using h2
    have hal : 0 < a.length := by
      rcases Nat.eq_zero_or_pos a.length with hz | hpos
      · exfalso
        have haemp : a = "" := by
          cases a with
          | mk d =>
            cases d with
            | nil => rfl
            | cons c cs => simp [String.length] at hz
        rw [haemp] at hane
        simp at hane
      · exact hpos
    have hlen := strJoin_length_ge " > " a l
    intro hpe
    rw [hp, hpe] at hlen
    have h0 : ("" : String).length = 0 := rfl
    rw [h0] at hlen
    omega

theorem splitGeneric_chunk_shape (ls : String → List String) (doc : Document)
    (chk : Document) (h : chk ∈ splitGeneric ls doc) :
    chk.metadata.section_path = none
      ∧ chk.page_content ∈ ls doc.page_content := by
  unfold splitGeneric at h
  obtain ⟨leaf, hl, rfl⟩ := List.mem_map.mp h
  exact ⟨rfl, hl⟩

theorem mem_mdSectionChunks (ls : String → List String) (doc : Document)
    (secs : List MdSection) (chk : Document)
    (h : chk ∈ mdSectionChunks ls doc secs) :
    ∃ sec ∈ secs, ∃ leaf ∈ ls sec.content,
      chk = mdLeafChunk doc sec (sectionPathOf sec) leaf := by
  induction secs with
  | nil => simp [mdSectionChunks] at h
  | cons sec rest ih =>
    simp only [mdSectionChunks, List.mem_append] at h
    cases h with
    | inl hl =>
      obtain ⟨leaf, hleaf, rfl⟩ := List.mem_map.mp hl
      exact ⟨sec, List.mem_cons_self sec rest, leaf, hleaf, rfl⟩
    | inr hr =>
      obtain ⟨s, hs, leaf, hleaf, heq⟩ := ih hr
      exact ⟨s, List.mem_cons_of_mem sec hs, leaf, hleaf, heq⟩

theorem splitMarkdown_breadcrumb (hs : String → List MdSection)
    (ls : String → List String) (doc : Document) (chk : Document)
    (h : chk ∈ splitMarkdown hs ls doc) (p : String)
    (hp : chk.metadata.section_path = some p) :
    ∃ leaf, chk.page_content = "[" ++ p ++ "]" ++ "\n\n" ++ leaf := by
  simp only [splitMarkdown] at h
  cases hempty : (mdSectionChunks ls doc (hs doc.page_content)).isEmpty with
  | true =>
    rw [hempty] at h
    simp only [if_pos rfl] at h
    obtain ⟨leaf, hl, rfl⟩ := List.mem_map.mp h
    simp at hp
  | false =>
    rw [hempty] at h
    simp only [Bool.false_eq_true, if_false] at h
    obtain ⟨sec, hsec, leaf, hleaf, rfl⟩ :=
      mem_mdSectionChunks ls doc (hs doc.page_content) chk h
    have hsp : sectionPathOf sec = some p := hp
    have hpne := sectionPathOf_ne_empty sec p hsp
    refine ⟨leaf, ?_⟩
    simp [mdLeafChunk, hsp, hpne]

/-- Claim C7 (confirmed): a chunk of a markdown document carrying a
section_path has its content prefixed with that heading path in bracket
form, and every chunk of a non-markdown document has null section_path with
its content a raw split window, no breadcrumb. -/
theorem markdown_breadcrumbs_and_generic_null
    (hs : String → List MdSection) (ls : String → List String)
    (doc : Document) :
    (∀ chk ∈ splitDocuments hs ls [doc], ∀ p,
       chk.metadata.section_path = some p →
         strLower doc.metadata.file_type = ".md"
         ∧ ∃ leaf, chk.page_content = "[" ++ p ++ "]" ++ "\n\n" ++ leaf)
    ∧ (strLower doc.metadata.file_type ≠ ".md" →
       ∀ chk ∈ splitDocuments hs ls [doc],
         chk.metadata.section_path = none
         ∧ chk.page_content ∈ ls doc.page_content) := by
  constructor
  · intro chk hchk p hp
    simp only [splitDocuments, List.append_nil] at hchk
    cases hmd : (strLower doc.metadata.file_type == ".md") with
    | true =>
      rw [hmd] at hchk
      simp only [if_pos rfl] at hchk
      exact ⟨by simpa using hmd,
        splitMarkdown_breadcrumb hs ls doc chk hchk p hp⟩
    | false =>
      rw [hmd] at hchk
      simp only [if_neg Bool.false_ne_true] at hchk
      have := (splitGeneric_chunk_shape ls doc chk hchk).1
      rw [this] at hp
      exact absurd hp (by simp)
  · intro hne chk hchk
    simp only [splitDocuments, List.append_nil] at hchk
    have hmd : (strLower doc.metadata.file_type == ".md") = false := by
      simpa using hne
    rw [hmd] at hchk
    simp only [if_neg Bool.false_ne_true] at hchk
    exact splitGeneric_chunk_shape ls doc chk hchk

def hsOne : String → List MdSection :=
  fun s => [{ h1 := some "T", h2 := none, h3 := none, content := s }]

def mdDocW : Document :=
  { page_content := "body"
    metadata :=
      { source := "m", file_type := ".md", filename := "en_a.md",
        lang_hint := "en" } }

def mdChunkW : Document :=
  mdLeafChunk mdDocW { h1 := some "T", h2 := none, h3 := none, content := "body" }
    (some "T") "body"

/-- Witness for C7 at concrete inputs: a markdown chunk under heading T is
bracket-prefixed, and a plain text chunk carries no section path. -/
theorem markdown_breadcrumbs_and_generic_null_witness :
    (strLower mdDocW.metadata.file_type = ".md"
       ∧ ∃ leaf, mdChunkW.page_content = "[" ++ "T" ++ "]" ++ "\n\n" ++ leaf)
      ∧ (cChunk.metadata.section_path = none
         ∧ cChunk.page_content ∈ lsWhole cDoc.page_content) := by
  constructor
  · exact (markdown_breadcrumbs_and_generic_null hsOne lsWhole mdDocW).1
      mdChunkW (by decide) "T" (by decide)
  · exact (markdown_breadcrumbs_and_generic_null hsOne lsWhole cDoc).2
      (by decide) cChunk (by decide)

-- The RAG pipeline (app/rag/rag_pipeline.py) and the generate endpoint
-- (app/main.py).

/-- One message of the chat_history list in the request body. -/
structure ChatMessage where
  role : String
  content : String
deriving Repr, DecidableEq

/-- The constructed RAGPipeline object: the Chroma handle, the model
configuration and the lowercased language key.  The embeddings client, the
chat model client and the compiled chain are external objects fixed by this
data. -/
structure RAGPipelineM where
  vectorstore : VectorStore
  modelName : String
  temperature : Rat
  language : String
deriving Repr

def LLM_MODEL : String := "gpt-5.1"

def TEMPERATURE : Rat := 1 / 2

/-- RAGPipeline constructor (rag_pipeline.py): a missing vector store
raises ValueError("Vector store not initialized") before any field of the
pipeline is set up; otherwise all fields are assigned and the chain is
created from them. -/
def ragPipelineInit (modelName : String) (temperature : Rat)
    (vectorstore : Option VectorStore) (language : String) :
    Except String RAGPipelineM :=
  match vectorstore with
  | none => Except.error "Vector store not initialized"
  | some vs =>
    Except.ok
      { vectorstore := vs, modelName := modelName,
        temperature := temperature, language := strLower language }

/-- Claim C10 (confirmed): constructing the retrieval pipeline with
vectorstore None always raises ValueError before any other work, whatever
the other arguments are. -/
theorem rag_pipeline_requires_vectorstore (modelName : String)
    (temperature : Rat) (language : String) :
    ragPipelineInit modelName temperature none language
      = Except.error "Vector store not initialized" := rfl

/-- Result of RAGPipeline.generate_answer together with two observables of
the chain run: the query string the retriever received and whether the
rewrite model was invoked. -/
structure RagResult where
  answer : String
  sources : List Document
  retrievalQuery : String
  rewriteCalled : Bool
deriving Repr, DecidableEq

/-- The history rendering loop of RAGPipeline.generate_answer: every
message becomes a prefixed line, so the rendered string is empty exactly
when the message list is empty. -/
def renderHistory (chat_history : List ChatMessage) : String :=
  chat_history.foldl
    (fun acc message =>
      acc ++ (if message.role == "user" then "User" else "Assistant")
        ++ ": " ++ message.content ++ "\n") ""

/-- The chain built by RAGPipeline._create_rag_chain, invoked on one input.
The branch on the chat_history value is the documented behavior of the
langchain create_history_aware_retriever that the method calls: when the
chat_history value is falsy, the input is passed directly to the retriever
and no model call is made; otherwise the history prompt and the model
produce the retrieval query.  retrieve stands for the similarity retriever
over the vector store (k = 6), rewriteLLM for the model behind the history
prompt and answerLLM for the model behind the answer prompt, applied to the
stuffed context and the chain input. -/
def runRagChain (rewriteLLM : String → String → String)
    (retrieve : VectorStore → String → List Document)
    (answerLLM : String → String → String)
    (vs : VectorStore) (input : String) (chat_history : String) : RagResult :=
  let rewriteCalled := !(chat_history == "")
  let query :=
    if chat_history == "" then input else rewriteLLM chat_history input
  let context := retrieve vs query
  let answer :=
    answerLLM (strJoin "\n\n" (context.map (fun d => d.page_content))) input
  { answer := answer, sources := context, retrievalQuery := query,
    rewriteCalled := rewriteCalled }

/-- RAGPipeline.generate_answer: render the history, invoke the chain,
strip the answer and return it with the source documents. -/
def generateAnswer (rewriteLLM : String → String → String)
    (retrieve : VectorStore → String → List Document)
    (answerLLM : String → String → String)
    (p : RAGPipelineM) (question : String)
    (chat_history : List ChatMessage) : RagResult :=
  let history_str := renderHistory chat_history
  let result :=
    runRagChain rewriteLLM retrieve answerLLM p.vectorstore question history_str
  { result with answer := result.answer.trim }

/-- Claim C3 (confirmed): with an empty conversation history the retriever
receives the original question verbatim and the rewrite model is not
called. -/
theorem first_turn_rewrite_noop (rewriteLLM : String → String → String)
    (retrieve : VectorStore → String → List Document)
    (answerLLM : String → String → String)
    (p : RAGPipelineM) (question : String) :
    (generateAnswer rewriteLLM retrieve answerLLM p question []).retrievalQuery
        = question
      ∧ (generateAnswer rewriteLLM retrieve answerLLM p question []).rewriteCalled
        = false :=
  ⟨rfl, rfl⟩

/-- The request body of the generate endpoint (app/models/schemas.py). -/
structure GenerateRequest where
  question : String
  chat_history : List ChatMessage
  thread_id : Option String
deriving Repr, DecidableEq

/-- The response body of the generate endpoint. -/
structure GenerateResponse where
  status : String
  message : String
  answer : String
  sources : List Document
deriving Repr, DecidableEq

/-- Everything the application persists in app.state across requests: the
two pipelines built at startup.  There is no conversation store anywhere in
the application state. -/
structure ServerState where
  rag_pipeline : RAGPipelineM
  esp_pipeline : RAGPipelineM
deriving Repr

/-- The generate endpoint of app/main.py: detect the question language once
(detect stands for langdetect.detect), pick the Spanish pipeline exactly
when the detected code is "es", answer the turn with that single pipeline,
and build the response.  app.state is only read, so the handler returns the
server state unchanged. -/
def generateEndpoint (detect : String → String)
    (rewriteLLM : String → String → String)
    (retrieve : VectorStore → String → List Document)
    (answerLLM : String → String → String)
    (st : ServerState) (body : GenerateRequest) :
    GenerateResponse × ServerState :=
  let language := detect body.question
  let pipeline := if language == "es" then st.esp_pipeline else st.rag_pipeline
  let response :=
    generateAnswer rewriteLLM retrieve answerLLM pipeline body.question
      body.chat_history
  ({ status := "success", message := "Answer generated successfully",
     answer := response.answer, sources := response.sources }, st)

/-- Claim C2 (code_bug): the claim requires the turn to be appended to a
conversation state persisted per thread_id, but the handler persists
nothing: the server state after any turn, successful or not, is the state
before it, and the response does not depend on the thread_id of the
request.  The chat history lives in the request body and is discarded. -/
theorem generate_turn_persists_no_state (detect : String → String)
    (rewriteLLM : String → String → String)
    (retrieve : VectorStore → String → List Document)
    (answerLLM : String → String → String)
    (st : ServerState) (body : GenerateRequest) :
    (generateEndpoint detect rewriteLLM retrieve answerLLM st body).2 = st
      ∧ generateEndpoint detect rewriteLLM retrieve answerLLM st body
        = generateEndpoint detect rewriteLLM retrieve answerLLM st
            { body with thread_id := none } :=
  ⟨rfl, rfl⟩

/-- Claim C8 (confirmed): the language is detected once on the question and
the whole turn is answered by the single pipeline that detection selects;
when the retriever only returns stored chunks, a question detected as
Spanish only ever sources chunks from the Spanish collection. -/
theorem language_routing_isolation (detect : String → String)
    (rewriteLLM : String → String → String)
    (retrieve : VectorStore → String → List Document)
    (answerLLM : String → String → String)
    (st : ServerState) (body : GenerateRequest)
    (hret : ∀ (s : VectorStore) (q : String) (d : Document),
      d ∈ retrieve s q → d ∈ s.docs) :
    ((generateEndpoint detect rewriteLLM retrieve answerLLM st body).1.answer
        = (generateAnswer rewriteLLM retrieve answerLLM
            (if detect body.question == "es" then st.esp_pipeline
             else st.rag_pipeline) body.question body.chat_history).answer
      ∧ (generateEndpoint detect rewriteLLM retrieve answerLLM st body).1.sources
        = (generateAnswer rewriteLLM retrieve answerLLM
            (if detect body.question == "es" then st.esp_pipeline
             else st.rag_pipeline) body.question body.chat_history).sources)
    ∧ (detect body.question = "es" →
       ∀ d ∈ (generateEndpoint detect rewriteLLM retrieve answerLLM st
           body).1.sources,
         d ∈ st.esp_pipeline.vectorstore.docs) := by
  constructor
  · exact ⟨rfl, rfl⟩
  · intro hes d hd
    simp only [generateEndpoint, generateAnswer, runRagChain, hes] at hd
    exact hret _ _ d hd

def detectEs : String → String := fun _ => "es"

def retrieveAll : VectorStore → String → List Document := fun s _ => s.docs

def rewriteIdW : String → String → String := fun _ q => q

def answerFixed : String → String → String := fun _ _ => "ok"

def espW : RAGPipelineM :=
  { vectorstore := { docs := [cDoc] }, modelName := "m", temperature := 0,
    language := "es" }

def enW : RAGPipelineM :=
  { vectorstore := emptyVS, modelName := "m", temperature := 0,
    language := "en" }

def stW : ServerState := { rag_pipeline := enW, esp_pipeline := espW }

def bodyW : GenerateRequest :=
  { question := "hola", chat_history := [], thread_id := none }

/-- Witness for C8 at a concrete turn: a question detected as Spanish is
answered by the Spanish pipeline and every sourced chunk is stored in the
Spanish collection. -/
theorem language_routing_isolation_witness :
    cDoc ∈ stW.esp_pipeline.vectorstore.docs :=
  (language_routing_isolation detectEs rewriteIdW retrieveAll answerFixed stW
      bodyW (fun _ _ _ h => h)).2 rfl cDoc (by decide)
